import Mathlib

/-!
Verification of the `otbr::TaskRunner` core (src/src/common/task_runner.hpp).

The repository ships only the header `task_runner.hpp`: the bodies of
`Post`, `UpdateFdSet`, `Process`, `PushTask` and `PopTasks` live in a
`task_runner.cpp` that is not part of the sources, so those operations are
modelled from the specification (each such definition carries a doc comment
starting with `Modelled from the spec:`).  The inline template
`PostAndWait` (header lines 95-102) is real source code and is embedded
directly.

Two models are used:

* a deterministic functional model (`RunnerState`, `TaskRunner.Post`,
  `TaskRunner.PopTasks`, `TaskRunner.Process`, `TaskRunner.UpdateFdSet`)
  for per-call input/output properties; tasks are identified by `Nat` ids
  and execution is recorded as a trace;
* a small-step interleaving model (`SysState`, `TaskRunner.Step`,
  `TaskRunner.Reachable`) in which producer threads perform the two atomic
  sub-steps of `Post` (enqueue under the lock, then signal the wakeup
  eventfd) and the mainloop thread performs the sub-steps of `Process`
  (consume the signal, swap the whole queue out under the lock, execute the
  swapped tasks one by one); this model settles the concurrency claims
  (FIFO across interleavings, no lost wakeup, deadlock of a mainloop-thread
  `PostAndWait`).

The promise/future handoff of `PostAndWait` is embedded with explicit
state passing: a `PWState` carries an abstract shared store (the side
effects of the task) and the one-shot promise cell, and task bodies are
store transformers; a task that throws is a store transformer returning
`Except`.
-/

/-- Modelled from the spec: the observable state of a `TaskRunner` (the
implementation file `task_runner.cpp` is not under src/).  `queue` is the
FIFO task queue `mTaskQueue` (task ids, front first), `signals` is the
number of pending bytes in the wakeup pipe/eventfd `mEventFd`, and
`executed` is the (ghost) trace of task ids run so far, in execution
order. -/
structure RunnerState where
  queue : List Nat
  signals : Nat
  executed : List Nat
  deriving DecidableEq, Repr

/-- Modelled from the spec: `Post`/`PushTask` appends the task to the queue
under the lock and THEN writes one byte to the wakeup eventfd (enqueue
before signal).  It returns no error and never blocks. -/
def TaskRunner.Post (t : Nat) (s : RunnerState) : RunnerState :=
  { s with queue := s.queue ++ [t], signals := s.signals + 1 }

/-- Modelled from the spec: `PopTasks` atomically swaps the entire queue
contents out under the lock and executes every swapped task in FIFO order,
to completion, before returning. -/
def TaskRunner.PopTasks (s : RunnerState) : RunnerState :=
  { s with queue := [], executed := s.executed ++ s.queue }

/-- Modelled from the spec: `Process` first checks whether the mainloop
reported the wakeup descriptor ready (`FD_ISSET` on `mEventFd[kRead]`,
rendered as the boolean `fdIsSet`); when not ready it returns at once,
touching nothing; when ready it drains all pending signal bytes from the
eventfd and then runs `PopTasks`. -/
def TaskRunner.Process (fdIsSet : Bool) (s : RunnerState) : RunnerState :=
  if fdIsSet then TaskRunner.PopTasks { s with signals := 0 } else s

/-- The `otSysMainloopContext` handed to `UpdateFdSet`: the read- and
write-interest descriptor sets, the maximum descriptor and the poll
timeout. -/
structure MainloopContext where
  readFds : List Nat
  writeFds : List Nat
  maxFd : Nat
  timeout : Nat
  deriving DecidableEq, Repr

/-- `FD_SET`: adds a descriptor to an fd set (no duplicates). -/
def fdSetInsert (fd : Nat) (l : List Nat) : List Nat :=
  if fd ∈ l then l else l ++ [fd]

/-- Modelled from the spec: `UpdateFdSet` registers read-interest in the
wakeup channel's read end `mEventFd[kRead]` and raises `maxFd`; it adds
nothing to the write set and leaves the timeout alone. -/
def TaskRunner.UpdateFdSet (eventFdRead : Nat) (m : MainloopContext) : MainloopContext :=
  { m with readFds := fdSetInsert eventFdRead m.readFds,
           maxFd := max m.maxFd eventFdRead }

/-! ### The promise/future handoff of `PostAndWait` (header lines 95-102) -/

/-- The state shared between the `PostAndWait` caller and the mainloop
thread: an abstract store `store` (all memory the task may read or write)
and the one-shot completion slot `promise` (`std::promise<T>`), `none`
while unset. -/
structure PWState (σ : Type) (T : Type) where
  store : σ
  promise : Option T

/-- `pro.set_value(v)`: fills the one-shot completion slot. -/
def TaskRunner.setValue {σ T : Type} (v : T) (s : PWState σ T) : PWState σ T :=
  { s with promise := some v }

/-- `pro.get_future().get()`: returns the slot's value once set; `none`
means the caller is still blocked. -/
def TaskRunner.futureGet {σ T : Type} (s : PWState σ T) : Option T :=
  s.promise

/-- The wrapper closure posted by `PostAndWait` (header line 99):
`[&]() { pro.set_value(aTask()); }` — it first runs `aTask` (which updates
the store and yields a value) and then stores that value into the
promise. -/
def TaskRunner.postAndWaitWrapper {σ T : Type} (aTask : σ → σ × T)
    (s : PWState σ T) : PWState σ T :=
  TaskRunner.setValue (aTask s.store).2 { s with store := (aTask s.store).1 }

/-- The same wrapper closure when the task may terminate abnormally: the
task is a store transformer returning `Except`.  Following header line 99,
`pro.set_value(aTask())` evaluates `aTask()` first; if it throws, the
exception escapes the closure before `set_value` runs, so the promise is
left untouched and the error is propagated (second component `some e`).
There is no `set_exception` path in the wrapper. -/
def TaskRunner.wrapperExc {σ E T : Type} (aTask : σ → σ × Except E T)
    (s : PWState σ T) : PWState σ T × Option E :=
  match aTask s.store with
  | (st, Except.ok v) => ({ store := st, promise := some v }, none)
  | (st, Except.error e) => ({ store := st, promise := s.promise }, some e)

/-- Modelled from the spec: the `PopTasks` loop of `Process` runs the
drained tasks one at a time; an abnormal termination of a task is not
intercepted, it aborts the loop and propagates out of `Process` (`some e`
in the second component). -/
def TaskRunner.runTasksExc {σ T E : Type}
    (tasks : List (PWState σ T → PWState σ T × Option E))
    (s : PWState σ T) : PWState σ T × Option E :=
  match tasks with
  | [] => (s, none)
  | t :: ts =>
    match t s with
    | (s', none) => TaskRunner.runTasksExc ts s'
    | (s', some e) => (s', some e)

/-! ### Runner operations performed by `PostAndWait` (header lines 95-102) -/

/-- A primitive operation on the shared runner state. -/
inductive RunnerOp where
  | post (t : Nat)
  deriving DecidableEq, Repr

/-- Interpretation of a runner operation on the functional model. -/
def TaskRunner.applyOp (op : RunnerOp) (s : RunnerState) : RunnerState :=
  match op with
  | RunnerOp.post t => TaskRunner.Post t s

/-- Interpretation of a sequence of runner operations. -/
def TaskRunner.applyOps (ops : List RunnerOp) (s : RunnerState) : RunnerState :=
  match ops with
  | [] => s
  | op :: rest => TaskRunner.applyOps rest (TaskRunner.applyOp op s)

/-- The runner operations the body of `PostAndWait` performs, read off
header lines 95-102: construct the local promise (line 97, no runner
state touched), call `Post` once with the wrapper closure (line 99), block
on the local future (line 101, no runner state touched).  `w` is the id of
the wrapper task. -/
def TaskRunner.postAndWaitOps (w : Nat) : List RunnerOp :=
  [RunnerOp.post w]

/-! ### Small-step interleaving model of concurrent `Post` / `Process` -/

/-- Where the mainloop thread stands inside `Process`.  `idle`: not inside
`Process`; `consumed`: the wakeup signal has been drained (the eventfd
read loop finished) but the queue has not been swapped yet; `executing`:
the queue has been swapped into a local list and its tasks are being run
one at a time. -/
inductive Phase where
  | idle
  | consumed
  | executing
  deriving DecidableEq, Repr

/-- Global state of the interleaving model.  `queue` is `mTaskQueue`;
`pending` is the local list `Process` swapped out (empty outside the
`executing` phase); `executed` is the trace of task ids run so far;
`signals` counts bytes pending in the wakeup eventfd; `inflight` counts
producer threads that have finished the enqueue half of `Post` but not yet
its signal half; `enqueued` is the (ghost) full history of task ids in
enqueue order. -/
structure SysState where
  phase : Phase
  queue : List Nat
  pending : List Nat
  executed : List Nat
  signals : Nat
  inflight : Nat
  enqueued : List Nat
  deriving DecidableEq, Repr

/-- The initial state: a freshly constructed runner. -/
def TaskRunner.initState : SysState :=
  { phase := Phase.idle, queue := [], pending := [], executed := [],
    signals := 0, inflight := 0, enqueued := [] }

/-- Atomic steps of the system.  A producer's `Post` is the two steps
`postEnqueue` (append under `mTaskQueueMutex`) then `postSignal` (write a
byte to `mEventFd[kWrite]`), in that order.  The mainloop's `Process`,
when the descriptor is ready, is `consume` (drain the eventfd), then
`swap` (swap the whole queue out under the lock), then one `execTask` per
swapped task in order, then `finish`.  Task ids are fresh (`t ∉ enqueued`):
distinct `Post` calls carry distinct closures. -/
inductive TaskRunner.Step : SysState → SysState → Prop where
  | postEnqueue (s : SysState) (t : Nat) (h : t ∉ s.enqueued) :
      TaskRunner.Step s { s with queue := s.queue ++ [t],
                                 enqueued := s.enqueued ++ [t],
                                 inflight := s.inflight + 1 }
  | postSignal (s : SysState) (h : 0 < s.inflight) :
      TaskRunner.Step s { s with signals := s.signals + 1,
                                 inflight := s.inflight - 1 }
  | consume (s : SysState) (h : s.phase = Phase.idle) :
      TaskRunner.Step s { s with phase := Phase.consumed, signals := 0 }
  | swap (s : SysState) (h : s.phase = Phase.consumed) :
      TaskRunner.Step s { s with phase := Phase.executing,
                                 pending := s.queue, queue := [] }
  | execTask (s : SysState) (t : Nat) (ts : List Nat)
      (h : s.phase = Phase.executing) (hp : s.pending = t :: ts) :
      TaskRunner.Step s { s with pending := ts,
                                 executed := s.executed ++ [t] }
  | finish (s : SysState) (h : s.phase = Phase.executing)
      (hp : s.pending = []) :
      TaskRunner.Step s { s with phase := Phase.idle }

/-- States reachable from the initial state. -/
inductive TaskRunner.Reachable : SysState → Prop where
  | init : TaskRunner.Reachable TaskRunner.initState
  | step {s s' : SysState} : TaskRunner.Reachable s → TaskRunner.Step s s' →
      TaskRunner.Reachable s'

/-- The steps available while the mainloop thread is blocked (as it is
inside a `PostAndWait` issued from the mainloop thread itself, stuck in
`pro.get_future().get()`): only other producers can move, performing the
two halves of `Post`; no `Process` sub-step can occur because the blocked
thread is the only one allowed to call `Process`. -/
inductive TaskRunner.ProducerStep : SysState → SysState → Prop where
  | postEnqueue (s : SysState) (t : Nat) (h : t ∉ s.enqueued) :
      TaskRunner.ProducerStep s { s with queue := s.queue ++ [t],
                                         enqueued := s.enqueued ++ [t],
                                         inflight := s.inflight + 1 }
  | postSignal (s : SysState) (h : 0 < s.inflight) :
      TaskRunner.ProducerStep s { s with signals := s.signals + 1,
                                         inflight := s.inflight - 1 }

/-- Finite sequences of producer-only steps. -/
inductive TaskRunner.ProducerReach : SysState → SysState → Prop where
  | refl (s : SysState) : TaskRunner.ProducerReach s s
  | step {s s' s'' : SysState} : TaskRunner.ProducerReach s s' →
      TaskRunner.ProducerStep s' s'' → TaskRunner.ProducerReach s s''

/-- The inductive invariant of the interleaving model:
the execution trace, the swapped-out pending list and the queue partition
the enqueue history in order (so nothing is dropped, duplicated or
reordered); the history has no duplicates; `pending` is empty outside the
`executing` phase; and whenever the queue is non-empty outside the
consume-to-swap window, a wakeup is pending in the eventfd or a producer
is between its enqueue and its signal. -/
def TaskRunner.SysInv (s : SysState) : Prop :=
  s.executed ++ (s.pending ++ s.queue) = s.enqueued ∧
  s.enqueued.Nodup ∧
  (s.phase ≠ Phase.executing → s.pending = []) ∧
  (s.phase ≠ Phase.consumed → s.queue ≠ [] → 1 ≤ s.signals + s.inflight)

/-- A concrete run used to exercise the reachability theorems: one task
(id 0) is posted (enqueue, then signal), the mainloop wakes, consumes the
signal, swaps the queue out, runs the task and finishes. -/
def TaskRunner.demoState : SysState :=
  { phase := Phase.idle, queue := [], pending := [], executed := [0],
    signals := 0, inflight := 0, enqueued := [0] }

/-! ### Helper lemmas -/

theorem TaskRunner.sysInv_init : TaskRunner.SysInv TaskRunner.initState := by
  refine ⟨rfl, List.nodup_nil, fun _ => rfl, fun _ hq => absurd rfl hq⟩

theorem TaskRunner.sysInv_step {s s' : SysState} (hs : TaskRunner.SysInv s)
    (h : TaskRunner.Step s s') : TaskRunner.SysInv s' := by
  obtain ⟨h1, h2, h3, h4⟩ := hs
  cases h with
  | postEnqueue t ht =>
    refine ⟨?_, ?_, h3, ?_⟩
    · show s.executed ++ (s.pending ++ (s.queue ++ [t])) = s.enqueued ++ [t]
      rw [← h1]
      simp [List.append_assoc]
    · show (s.enqueued ++ [t]).Nodup
      simp [List.nodup_append, h2, ht]
    · intro _ _
      show 1 ≤ s.signals + (s.inflight + 1)
      omega
  | postSignal hi =>
    refine ⟨h1, h2, h3, ?_⟩
    intro _ _
    show 1 ≤ s.signals + 1 + (s.inflight - 1)
    omega
  | consume hph =>
    refine ⟨h1, h2, fun _ => h3 (by simp [hph]), ?_⟩
    intro hc
    exact absurd rfl hc
  | swap hph =>
    have hp0 : s.pending = [] := h3 (by simp [hph])
    refine ⟨?_, h2, fun hph' => absurd rfl hph', ?_⟩
    · show s.executed ++ (s.queue ++ []) = s.enqueued
      rw [← h1, hp0]
      simp
    · intro _ hq
      exact absurd rfl hq
  | execTask t ts hph hp =>
    refine ⟨?_, h2, ?_, ?_⟩
    · show s.executed ++ [t] ++ (ts ++ s.queue) = s.enqueued
      rw [← h1, hp]
      simp
    · intro hph'
      exact absurd hph hph'
    · intro _ hq
      exact h4 (by simp [hph]) hq
  | finish hph hp =>
    refine ⟨h1, h2, fun _ => hp, ?_⟩
    intro _ hq
    exact h4 (by simp [hph]) hq

theorem TaskRunner.reachable_inv {s : SysState} (h : TaskRunner.Reachable s) :
    TaskRunner.SysInv s := by
  induction h with
  | init => exact TaskRunner.sysInv_init
  | step hr hstep ih => exact TaskRunner.sysInv_step ih hstep

theorem TaskRunner.producerReach_frame {s s' : SysState}
    (h : TaskRunner.ProducerReach s s') :
    s'.executed = s.executed ∧ ∀ t, t ∈ s.queue → t ∈ s'.queue := by
  induction h with
  | refl => exact ⟨rfl, fun _ ht => ht⟩
  | step hr hstep ih =>
    obtain ⟨he, hq⟩ := ih
    cases hstep with
    | postEnqueue t1 h1 =>
      exact ⟨he, fun t ht => List.mem_append.mpr (Or.inl (hq t ht))⟩
    | postSignal h1 =>
      exact ⟨he, hq⟩

theorem TaskRunner.demo_reachable : TaskRunner.Reachable TaskRunner.demoState := by
  have h1 : TaskRunner.Reachable
      (⟨Phase.idle, [0], [], [], 0, 1, [0]⟩ : SysState) :=
    TaskRunner.Reachable.step TaskRunner.Reachable.init
      (TaskRunner.Step.postEnqueue TaskRunner.initState 0 (by decide))
  have h2 : TaskRunner.Reachable
      (⟨Phase.idle, [0], [], [], 1, 0, [0]⟩ : SysState) :=
    TaskRunner.Reachable.step h1 (TaskRunner.Step.postSignal _ (by decide))
  have h3 : TaskRunner.Reachable
      (⟨Phase.consumed, [0], [], [], 0, 0, [0]⟩ : SysState) :=
    TaskRunner.Reachable.step h2 (TaskRunner.Step.consume _ rfl)
  have h4 : TaskRunner.Reachable
      (⟨Phase.executing, [], [0], [], 0, 0, [0]⟩ : SysState) :=
    TaskRunner.Reachable.step h3 (TaskRunner.Step.swap _ rfl)
  have h5 : TaskRunner.Reachable
      (⟨Phase.executing, [], [], [0], 0, 0, [0]⟩ : SysState) :=
    TaskRunner.Reachable.step h4 (TaskRunner.Step.execTask _ 0 [] rfl rfl)
  exact TaskRunner.Reachable.step h5 (TaskRunner.Step.finish _ rfl rfl)

/-! ### The claims -/

/-- Claim C1: tasks are executed in exactly the order they were posted
(strict FIFO), even when the executions are spread across multiple
`Process` calls: in every reachable state of the interleaving model the
execution trace is an initial segment of the enqueue-order history.  In
particular, if task A's `Post` returns before task B's `Post` begins, A
precedes B in the history, hence A executes before B. -/
theorem TaskRunner.c1_fifo_execution_order (s : SysState)
    (h : TaskRunner.Reachable s) :
    ∃ rest, s.enqueued = s.executed ++ rest := by
  obtain ⟨h1, _, _, _⟩ := TaskRunner.reachable_inv h
  exact ⟨s.pending ++ s.queue, h1.symm⟩

theorem TaskRunner.c1_fifo_witness :
    TaskRunner.Reachable TaskRunner.demoState ∧
    ∃ rest, TaskRunner.demoState.enqueued = TaskRunner.demoState.executed ++ rest :=
  ⟨TaskRunner.demo_reachable,
    TaskRunner.c1_fifo_execution_order TaskRunner.demoState TaskRunner.demo_reachable⟩

/-- Claim C2: `Process` with the wakeup descriptor ready removes the whole
current queue in one swap and executes every removed task exactly once, in
order, before returning (functional model: the queue is empty afterwards
and the trace is extended by exactly the old queue); in the interleaving
model no reachable state ever duplicates or drops a task (the trace, the
swapped-out list and the queue partition the distinct enqueue history), an
executed task is never in the queue again, and tasks posted during the
execution phase remain in the queue for a future `Process` call. -/
theorem TaskRunner.c2_process_drains_queue :
    (∀ s : RunnerState, (TaskRunner.Process true s).queue = [] ∧
        (TaskRunner.Process true s).executed = s.executed ++ s.queue) ∧
    (∀ s : SysState, TaskRunner.Reachable s →
        s.executed.Nodup ∧
        s.executed ++ (s.pending ++ s.queue) = s.enqueued ∧
        ∀ t, t ∈ s.executed → t ∉ s.queue) := by
  refine ⟨fun s => ⟨rfl, rfl⟩, fun s hs => ?_⟩
  obtain ⟨h1, h2, _, _⟩ := TaskRunner.reachable_inv hs
  rw [← h1] at h2
  refine ⟨h2.of_append_left, h1, fun t ht hq => ?_⟩
  exact (List.disjoint_of_nodup_append h2) ht (List.mem_append.mpr (Or.inr hq))

theorem TaskRunner.c2_witness :
    (TaskRunner.Process true ⟨[1, 2], 3, [0]⟩).queue = [] ∧
    TaskRunner.Reachable TaskRunner.demoState ∧
    TaskRunner.demoState.executed.Nodup :=
  ⟨(TaskRunner.c2_process_drains_queue.1 ⟨[1, 2], 3, [0]⟩).1,
    TaskRunner.demo_reachable,
    (TaskRunner.c2_process_drains_queue.2 TaskRunner.demoState
      TaskRunner.demo_reachable).1⟩

/-- Claim C3: for a task returning value V (with arbitrary side effects on
the shared store), the wrapper posted by `PostAndWait` (header line 99)
runs the task and only then stores exactly V in the promise, so the
caller's `get` returns exactly V and every side effect of the task is
already in the store when it does; before the wrapper has run the promise
is unset and `get` yields nothing, so `PostAndWait` returns only after the
task has actually executed on the mainloop thread. -/
theorem TaskRunner.c3_postAndWait_returns_value {σ T : Type}
    (aTask : σ → σ × T) (st : σ) :
    TaskRunner.futureGet (TaskRunner.postAndWaitWrapper aTask ⟨st, none⟩) =
        some (aTask st).2 ∧
    (TaskRunner.postAndWaitWrapper aTask ⟨st, none⟩).store = (aTask st).1 ∧
    TaskRunner.futureGet (⟨st, none⟩ : PWState σ T) = none :=
  ⟨rfl, rfl, rfl⟩

/-- Claim C4: no interleaving of `Post` and `Process` loses a wakeup: at
the moment any `Post` completes (the only step that finishes a `Post` is
its signal step, i.e. the step that decreases `inflight`), at least one
signal is pending; and in every reachable state outside the
consume-to-swap window of `Process`, a non-empty queue implies a pending
signal or a producer between its enqueue and its signal — maintained
precisely because `Post` enqueues before signalling and `Process` consumes
before dequeuing. -/
theorem TaskRunner.c4_wakeup_signal_invariant (s s' : SysState)
    (hr : TaskRunner.Reachable s) (hstep : TaskRunner.Step s s') :
    (s'.inflight < s.inflight → 1 ≤ s'.signals) ∧
    (s'.phase ≠ Phase.consumed → s'.queue ≠ [] →
      1 ≤ s'.signals + s'.inflight) := by
  constructor
  · intro hdec
    cases hstep with
    | postEnqueue t ht => exact absurd hdec (by show ¬s.inflight + 1 < s.inflight; omega)
    | postSignal hi => show 1 ≤ s.signals + 1; omega
    | consume hph => exact absurd hdec (by show ¬s.inflight < s.inflight; omega)
    | swap hph => exact absurd hdec (by show ¬s.inflight < s.inflight; omega)
    | execTask t ts hph hp => exact absurd hdec (by show ¬s.inflight < s.inflight; omega)
    | finish hph hp => exact absurd hdec (by show ¬s.inflight < s.inflight; omega)
  · exact (TaskRunner.reachable_inv (TaskRunner.Reachable.step hr hstep)).2.2.2

theorem TaskRunner.c4_witness :
    1 ≤ (⟨Phase.idle, [0], [], [], 1, 0, [0]⟩ : SysState).signals := by
  have hr : TaskRunner.Reachable (⟨Phase.idle, [0], [], [], 0, 1, [0]⟩ : SysState) :=
    TaskRunner.Reachable.step TaskRunner.Reachable.init
      (TaskRunner.Step.postEnqueue TaskRunner.initState 0 (by decide))
  exact (TaskRunner.c4_wakeup_signal_invariant _ _ hr
    (TaskRunner.Step.postSignal _ (by decide))).1 (by decide)

/-- Claim C5: a `PostAndWait` invoked on the mainloop thread never
returns.  The caller blocks in `pro.get_future().get()` and is the only
thread allowed to run `Process`, so from that point on only producer steps
(the two halves of other threads' `Post` calls) can occur; under any
finite sequence of such steps the wrapper task stays in the queue and the
execution trace never grows, hence the promise is never set and the slot
never unblocks — permanent deadlock.  The source (header lines 95-102)
performs no thread-identity check, so the misuse is not detected. -/
theorem TaskRunner.c5_mainloop_postAndWait_deadlock (s s' : SysState) (w : Nat)
    (h : TaskRunner.ProducerReach s s') (hw : w ∈ s.queue)
    (hnot : w ∉ s.executed) :
    w ∈ s'.queue ∧ w ∉ s'.executed := by
  obtain ⟨he, hq⟩ := TaskRunner.producerReach_frame h
  exact ⟨hq w hw, by rw [he]; exact hnot⟩

theorem TaskRunner.c5_witness :
    5 ∈ (⟨Phase.idle, [5, 7], [], [], 1, 1, [5, 7]⟩ : SysState).queue ∧
    5 ∉ (⟨Phase.idle, [5, 7], [], [], 1, 1, [5, 7]⟩ : SysState).executed := by
  have h : TaskRunner.ProducerReach (⟨Phase.idle, [5], [], [], 1, 0, [5]⟩ : SysState)
      (⟨Phase.idle, [5, 7], [], [], 1, 1, [5, 7]⟩ : SysState) :=
    TaskRunner.ProducerReach.step (TaskRunner.ProducerReach.refl _)
      (TaskRunner.ProducerStep.postEnqueue _ 7 (by decide))
  exact TaskRunner.c5_mainloop_postAndWait_deadlock _ _ 5 h (by decide) (by decide)

/-- Claim C6: `UpdateFdSet` contributes exactly one descriptor — the
wakeup channel's read end — to the read-interest set (the resulting read
set is the old one plus that descriptor and nothing else), never touches
the write-interest set and never modifies the reactor's timeout in the
supplied mainloop context. -/
theorem TaskRunner.c6_updateFdSet_frame (fd : Nat) (m : MainloopContext) :
    (TaskRunner.UpdateFdSet fd m).writeFds = m.writeFds ∧
    (TaskRunner.UpdateFdSet fd m).timeout = m.timeout ∧
    fd ∈ (TaskRunner.UpdateFdSet fd m).readFds ∧
    (∀ x, x ∈ (TaskRunner.UpdateFdSet fd m).readFds ↔ x ∈ m.readFds ∨ x = fd) := by
  refine ⟨rfl, rfl, ?_, ?_⟩
  · show fd ∈ fdSetInsert fd m.readFds
    unfold fdSetInsert
    by_cases h : fd ∈ m.readFds
    · simp only [if_pos h]
      exact h
    · simp [h]
  · intro x
    show x ∈ fdSetInsert fd m.readFds ↔ x ∈ m.readFds ∨ x = fd
    unfold fdSetInsert
    by_cases h : fd ∈ m.readFds
    · simp only [if_pos h]
      constructor
      · exact fun hx => Or.inl hx
      · rintro (hx | rfl)
        · exact hx
        · exact h
    · simp [if_neg h]

/-- Claim C7: `Post` never fails observably once the runner exists: in the
functional model it is total, surfaces no error (its result is just the
new state) and has exactly the append-and-signal effect for every task and
every state; in the interleaving model the enqueue half of `Post` is
enabled in every state whatever the mainloop thread is doing (so it is
safe from any thread, including the mainloop thread), and the signal half
is enabled whenever an enqueue is outstanding — `Post` never blocks. -/
theorem TaskRunner.c7_post_never_fails (t : Nat) (s : RunnerState)
    (sys : SysState) (hfresh : t ∉ sys.enqueued) :
    TaskRunner.Post t s =
      { queue := s.queue ++ [t], signals := s.signals + 1,
        executed := s.executed } ∧
    (∃ sys', TaskRunner.Step sys sys' ∧ sys'.enqueued = sys.enqueued ++ [t]) ∧
    (∀ sys2 : SysState, 0 < sys2.inflight →
      ∃ sys2', TaskRunner.Step sys2 sys2') := by
  refine ⟨rfl, ⟨_, TaskRunner.Step.postEnqueue sys t hfresh, rfl⟩, ?_⟩
  intro sys2 hi
  exact ⟨_, TaskRunner.Step.postSignal sys2 hi⟩

theorem TaskRunner.c7_witness :
    (3 ∉ TaskRunner.initState.enqueued) ∧
    TaskRunner.Post 3 ⟨[], 0, []⟩ = ⟨[3], 1, []⟩ :=
  ⟨by decide,
    (TaskRunner.c7_post_never_fails 3 ⟨[], 0, []⟩ TaskRunner.initState
      (by decide)).1⟩

/-- Claim C8: `Process` called while the wakeup descriptor is not ready
and the queue is empty is a complete no-op: the state is returned
unchanged, so no task is executed and no signal is consumed. -/
theorem TaskRunner.c8_idle_noop (s : RunnerState) (_h : s.queue = []) :
    TaskRunner.Process false s = s ∧
    (TaskRunner.Process false s).executed = s.executed ∧
    (TaskRunner.Process false s).signals = s.signals :=
  ⟨rfl, rfl, rfl⟩

theorem TaskRunner.c8_witness :
    (⟨[], 2, [9]⟩ : RunnerState).queue = [] ∧
    TaskRunner.Process false ⟨[], 2, [9]⟩ = ⟨[], 2, [9]⟩ :=
  ⟨rfl, (TaskRunner.c8_idle_noop ⟨[], 2, [9]⟩ rfl).1⟩

/-- Claim C9: if the task given to `PostAndWait` terminates abnormally,
the wrapper closure (header line 99) never sets the promise — evaluation
of `aTask()` aborts before `set_value` and the wrapper has no
`set_exception` path — so the promise stays unset (the caller blocked in
`get` is never released) and the exception propagates out of the
`PopTasks` loop, i.e. out of `Process`, on the mainloop thread. -/
theorem TaskRunner.c9_exception_skips_promise {σ E T : Type}
    (aTask : σ → σ × Except E T) (st st2 : σ) (e : E)
    (h : aTask st = (st2, Except.error e)) :
    (TaskRunner.runTasksExc [TaskRunner.wrapperExc aTask]
        (⟨st, none⟩ : PWState σ T)).1.promise = none ∧
    (TaskRunner.runTasksExc [TaskRunner.wrapperExc aTask]
        (⟨st, none⟩ : PWState σ T)).2 = some e ∧
    TaskRunner.futureGet (TaskRunner.runTasksExc [TaskRunner.wrapperExc aTask]
        (⟨st, none⟩ : PWState σ T)).1 = none := by
  simp [TaskRunner.runTasksExc, TaskRunner.wrapperExc, h, TaskRunner.futureGet]

theorem TaskRunner.c9_witness :
    (fun n : Nat => (n + 1, (Except.error 7 : Except Nat Nat))) 0 =
      (1, Except.error 7) ∧
    (TaskRunner.runTasksExc [TaskRunner.wrapperExc
        (fun n : Nat => (n + 1, (Except.error 7 : Except Nat Nat)))]
        (⟨0, none⟩ : PWState Nat Nat)).2 = some 7 :=
  ⟨rfl, (TaskRunner.c9_exception_skips_promise
    (fun n : Nat => (n + 1, (Except.error 7 : Except Nat Nat))) 0 1 7 rfl).2.1⟩

/-- Claim C10: `PostAndWait` is a refinement of `Post`: its body performs
exactly one runner operation, a single `Post` of the wrapper closure
(header line 99, the promise construction and the blocking `get` touch no
runner state), so its effect on the runner equals a plain `Post` of one
task; the wrapper occupies exactly one FIFO slot at the back of the queue
and `PostAndWait` therefore inherits all of `Post`'s ordering
guarantees. -/
theorem TaskRunner.c10_postAndWait_refines_post (w : Nat) (s : RunnerState) :
    (TaskRunner.postAndWaitOps w).length = 1 ∧
    TaskRunner.applyOps (TaskRunner.postAndWaitOps w) s = TaskRunner.Post w s ∧
    (TaskRunner.applyOps (TaskRunner.postAndWaitOps w) s).queue =
      s.queue ++ [w] ∧
    (TaskRunner.applyOps (TaskRunner.postAndWaitOps w) s).executed =
      s.executed :=
  ⟨rfl, rfl, rfl, rfl⟩
